import Mathlib

/-
Shallow embedding of `mapper/transaction.go` from the avalanche-rosetta
repository, together with theorems checking the natural-language
specification against it.

Go `*big.Int` values are modelled as `Int`, Go `uint64` as `Nat` (with an
explicit two's-complement reinterpretation `toInt64` where the source
converts through `int64`), Go slices as `List`, and Go maps as
insertion-ordered association lists.  Fallible code returns `Except` or
`Option`.
-/

deriving instance DecidableEq for Except

namespace AvaRosetta

/-- Modelled from the spec: operation status constants defined in the mapper
package outside the extracted source file. -/
def StatusSuccess : String := "SUCCESS"

/-- Modelled from the spec: failure status constant. -/
def StatusFailure : String := "FAILURE"

/-- Modelled from the spec: operation type constants of the mapper package. -/
def OpFee : String := "FEE"

/-- Modelled from the spec: operation type for internal calls. -/
def OpCall : String := "CALL"

/-- Modelled from the spec: operation type for self-destructs. -/
def OpSelfDestruct : String := "SELFDESTRUCT"

/-- Modelled from the spec: operation type for destroyed-account liquidation. -/
def OpDestruct : String := "DESTRUCT"

/-- Modelled from the spec: operation type for atomic imports. -/
def OpImport : String := "IMPORT"

/-- Modelled from the spec: operation type for atomic exports. -/
def OpExport : String := "EXPORT"

/-- Modelled from the spec: ERC20 mint operation type. -/
def OpErc20Mint : String := "ERC20_MINT"

/-- Modelled from the spec: ERC20 burn operation type. -/
def OpErc20Burn : String := "ERC20_BURN"

/-- Modelled from the spec: ERC20 transfer operation type. -/
def OpErc20Transfer : String := "ERC20_TRANSFER"

/-- Modelled from the spec: ERC721 mint operation type. -/
def OpErc721Mint : String := "ERC721_MINT"

/-- Modelled from the spec: ERC721 burn operation type. -/
def OpErc721Burn : String := "ERC721_BURN"

/-- Modelled from the spec: ERC721 transfer sender operation type. -/
def OpErc721TransferSender : String := "ERC721_SENDER"

/-- Modelled from the spec: ERC721 transfer receiver operation type. -/
def OpErc721TransferReceive : String := "ERC721_RECEIVE"

/-- Modelled from the spec: sentinel symbol for unknown ERC20 tokens. -/
def UnknownERC20Symbol : String := "ERC20"

/-- Modelled from the spec: sentinel symbol for unknown ERC721 tokens. -/
def UnknownERC721Symbol : String := "ERC721"

/-- Modelled from the spec: the value-transfer call kinds, as opposed to the
create and self-destruct variants (`CallType` in the mapper package). -/
def CallType (t : String) : Bool :=
  t == OpCall || t == "CALLCODE" || t == "DELEGATECALL" || t == "STATICCALL"

/-- Modelled from the spec: the create call kinds (`CreateType` in the mapper
package). -/
def CreateType (t : String) : Bool :=
  t == "CREATE" || t == "CREATE2"

/-- Source constant `transferMethodHash`: hash of the ERC20/ERC721 transfer
event signature. -/
def transferMethodHash : String :=
  "0xddf252ad1be2c89b69c2b068fc378daa952ba7f163c4a11628f55a4df523b3ef"

/-- Source constant `X2crate`: multiplicative scale factor between atomic and
whole-unit native currency. -/
def X2crate : Int := 1000000000

/-- Modelled from the spec: the all-zero EVM address (`common.Address{}`),
rendered as its checksum string. -/
def zeroAddress : String := "0x0000000000000000000000000000000000000000"

/-- Source constant `topicsInErc721Transfer`. -/
def topicsInErc721Transfer : Nat := 4

/-- Source constant `topicsInErc20Transfer`. -/
def topicsInErc20Transfer : Nat := 3

/-- Modelled from the spec: case-insensitive membership check
(`EqualFoldContains` in the mapper package). -/
def EqualFoldContains (xs : List String) (s : String) : Bool :=
  xs.any (fun x => x.toLower == s.toLower)

/-- Go `int64(u)` applied to a `uint64` value: two's-complement
reinterpretation. -/
def toInt64 (a : Nat) : Int :=
  if a % 2 ^ 64 < 2 ^ 63 then ((a % 2 ^ 64 : Nat) : Int)
  else ((a % 2 ^ 64 : Nat) : Int) - 2 ^ 64

/-- Currency descriptor attached to amounts. -/
inductive Currency where
  | avax
  | atomicAvax
  | token (symbol : String) (decimals : Nat) (contractAddress : String)
  deriving Repr, DecidableEq

/-- Modelled from the spec: `ToCurrency` builds the token currency descriptor
from the resolved symbol, decimals and emitting contract address. -/
def ToCurrency (symbol : String) (decimals : Nat) (contractAddress : String) : Currency :=
  .token symbol decimals contractAddress

/-- A signed amount with its currency. -/
structure Amount where
  value : Int
  currency : Currency
  deriving Repr, DecidableEq

/-- Modelled from the spec: `AvaxAmount` wraps a signed quantity in the
whole-unit native currency. -/
def AvaxAmount (v : Int) : Amount := ⟨v, .avax⟩

/-- Modelled from the spec: `AtomicAvaxAmount` wraps a signed quantity in the
atomic-unit native currency. -/
def AtomicAvaxAmount (v : Int) : Amount := ⟨v, .atomicAvax⟩

/-- Modelled from the spec: `Erc20Amount` decodes the transferred quantity
from the log data (modelled as the decoded natural number) and signs it
according to the debit/credit role. -/
def Erc20Amount (data : Nat) (currency : Currency) (sender : Bool) : Amount :=
  ⟨if sender then -(data : Int) else (data : Int), currency⟩

/-- Coin-creation reference carried by exported-output operations: the
synthetic UTXO id is formed from the canonical transaction id and the output
index. -/
structure CoinChange where
  txID : String
  outputIndex : Nat
  deriving Repr, DecidableEq

/-- Per-operation metadata variants used by the mapper. -/
inductive OpMeta where
  | noMeta
  | traceMeta (error : Option String)
  | importMeta (tx : String) (txIds : List String) (blockchainID : String)
      (networkID : Nat) (sourceChain : String) (assetID : String)
  | exportMeta (tx : String) (blockchainID : String) (networkID : Nat)
      (destinationChain : String) (assetID : String)
  | erc721Meta (contractAddress : String) (indexTransferred : String)
  deriving Repr, DecidableEq

/-- One Rosetta operation.  `opIndex` models `OperationIdentifier.Index`;
exported-output operations, whose identifier is left unset by the source until
the final assignment loop, carry a placeholder `0` that is always overwritten
by that same assignment before the operation is exposed. -/
structure Operation where
  opIndex : Int := 0
  relatedOps : List Int := []
  opType : String := ""
  status : String := ""
  address : String := ""
  amount : Option Amount := none
  coinChange : Option CoinChange := none
  opMeta : OpMeta := .noMeta
  deriving Repr, DecidableEq

/-- A flattened internal call (`clientTypes.FlatCall`). -/
structure FlatCall where
  callType : String
  fromAddr : String
  toAddr : String
  value : Nat
  revert : Bool
  error : String
  deriving Repr, DecidableEq

/-- An EVM event log, with the data field modelled as the decoded unsigned
quantity it encodes. -/
structure Log where
  address : String
  topics : List String
  data : Nat
  deriving Repr, DecidableEq

/-- The destroyed-account ledger: a Go `map[string]*big.Int`, modelled as an
insertion-ordered association list. -/
abbrev Ledger := List (String × Int)

/-- Go map membership test. -/
def ledgerContains (l : Ledger) (k : String) : Bool :=
  l.any (fun p => p.1 == k)

/-- Go map lookup (the source only reads keys it knows are present; absent
keys default to zero). -/
def ledgerGet (l : Ledger) (k : String) : Int :=
  (((l.find? (fun p => p.1 == k)).map (fun p => p.2)).getD 0)

/-- Go map assignment: overwrite in place if the key is present, else append. -/
def ledgerSet (l : Ledger) (k : String) (v : Int) : Ledger :=
  match l with
  | [] => [(k, v)]
  | (k1, v1) :: rest => if k1 == k then (k, v) :: rest else (k1, v1) :: ledgerSet rest k v

/-- Go map deletion. -/
def ledgerErase (l : Ledger) (k : String) : Ledger :=
  l.filter (fun p => p.1 != k)

/-- Last assigned operation index, with an explicit default for the empty
list.  The source reads `ops[len(ops)-1]` only at points where `ops` is
provably nonempty (a self-destruct always emits its debit operation first),
so the default never influences a reachable state. -/
def lastIndex (ops : List Operation) (d : Int) : Int :=
  ((ops.getLast?.map (fun o => o.opIndex)).getD d)

/-- The debit operation emitted for the `from` side of a flattened call. -/
def fromOpOf (startIndex opsLen : Nat) (ty opStatus : String) (metaErr : Option String)
    (zeroValue : Bool) (addr : String) (v : Nat) : Operation :=
  { opIndex := ((opsLen + startIndex : Nat) : Int)
    relatedOps := []
    opType := ty
    status := opStatus
    address := addr
    amount := if zeroValue then none else some (AvaxAmount (-(v : Int)))
    coinChange := none
    opMeta := .traceMeta metaErr }

/-- The credit operation emitted for the `to` side of a flattened call,
linked to the immediately preceding debit. -/
def toOpOf (lastIdx : Int) (ty opStatus : String) (metaErr : Option String)
    (zeroValue : Bool) (addr : String) (v : Nat) : Operation :=
  { opIndex := lastIdx + 1
    relatedOps := [lastIdx]
    opType := ty
    status := opStatus
    address := addr
    amount := if zeroValue then none else some (AvaxAmount (v : Int))
    coinChange := none
    opMeta := .traceMeta metaErr }

/-- Tail of one trace-fold step: the empty-`to` sanity check, resurrection of
created accounts, and the credit-operation emission. -/
def traceStepTail (startIndex : Nat) (call : FlatCall) (opStatus : String)
    (metaErr : Option String) (zeroValue shouldAdd : Bool) (toA : String)
    (st : List Operation × Ledger) : List Operation × Ledger :=
  if toA.length == 0 then st
  else
    let dacc := if CreateType call.callType then ledgerErase st.2 toA else st.2
    if shouldAdd then
      let lastIdx := lastIndex st.1 ((startIndex : Int) - 1)
      let dacc2 :=
        if !zeroValue && ledgerContains dacc toA && (opStatus == StatusSuccess)
        then ledgerSet dacc toA (ledgerGet dacc toA + (call.value : Int))
        else dacc
      (st.1 ++ [toOpOf lastIdx call.callType opStatus metaErr zeroValue toA call.value], dacc2)
    else (st.1, dacc)

/-- One step of the trace fold: debit emission with destroyed-ledger
adjustment, self-destruct capture, then `traceStepTail`. -/
def traceStep (startIndex : Nat) (st : List Operation × Ledger) (call : FlatCall) :
    List Operation × Ledger :=
  let opStatus := if call.revert then StatusFailure else StatusSuccess
  let metaErr : Option String := if call.revert then some call.error else none
  let zeroValue : Bool := call.value == 0
  let shouldAdd : Bool := !(zeroValue && CallType call.callType)
  let fromA := call.fromAddr
  let toA := call.toAddr
  let ops1 :=
    if shouldAdd
    then st.1 ++ [fromOpOf startIndex st.1.length call.callType opStatus metaErr zeroValue fromA call.value]
    else st.1
  let dacc1 :=
    if shouldAdd && !zeroValue && ledgerContains st.2 fromA && (opStatus == StatusSuccess)
    then ledgerSet st.2 fromA (ledgerGet st.2 fromA - (call.value : Int))
    else st.2
  if call.callType == OpSelfDestruct then
    let dacc2 := ledgerSet dacc1 fromA 0
    if fromA == toA then (ops1, dacc2)
    else traceStepTail startIndex call opStatus metaErr zeroValue shouldAdd toA (ops1, dacc2)
  else traceStepTail startIndex call opStatus metaErr zeroValue shouldAdd toA (ops1, dacc1)

/-- Finalization loop: one liquidation operation per strictly positive
destroyed-account entry; a negative entry is the fatal `log.Fatalf` path,
modelled as `none`. -/
def liqLoop (startIndex : Nat) (entries : Ledger) (ops : List Operation) :
    Option (List Operation) :=
  match entries with
  | [] => some ops
  | (acct, val) :: rest =>
    if val == 0 then liqLoop startIndex rest ops
    else if val < 0 then none
    else
      liqLoop startIndex rest
        (ops ++ [{ opIndex := lastIndex ops ((startIndex : Int) - 1) + 1
                   relatedOps := []
                   opType := OpDestruct
                   status := StatusSuccess
                   address := acct
                   amount := some (AvaxAmount (-val))
                   coinChange := none
                   opMeta := .noMeta }])

/-- Source `traceOps`: folds the flattened trace into debit/credit operations
and appends the destroyed-account liquidation operations.  `none` models the
fatal halt on a negative residual ledger entry.  Go iterates the final ledger
map in unspecified order; the association-list order is one admissible
enumeration, and every property proved below is insensitive to it. -/
def traceOps (trace : List FlatCall) (startIndex : Nat) : Option (List Operation) :=
  if trace.isEmpty then some [] else
  let st := trace.foldl (traceStep startIndex) ([], [])
  liqLoop startIndex st.2 st.1

/-- Source `erc20Ops`: decodes an ERC20-shaped transfer log into mint, burn
or a linked send/receive pair.  `bytesToAddress` models
`common.BytesToAddress` applied to a topic. -/
def erc20Ops (bytesToAddress : String → String) (transferLog : Log)
    (currency : Currency) (opsLen : Nat) : List Operation :=
  let fromAddress := bytesToAddress (transferLog.topics.getD 1 "")
  let toAddress := bytesToAddress (transferLog.topics.getD 2 "")
  if fromAddress == zeroAddress then
    [{ opIndex := (opsLen : Int)
       status := StatusSuccess
       opType := OpErc20Mint
       amount := some (Erc20Amount transferLog.data currency false)
       address := toAddress }]
  else if toAddress == zeroAddress then
    [{ opIndex := (opsLen : Int)
       status := StatusSuccess
       opType := OpErc20Burn
       amount := some (Erc20Amount transferLog.data currency true)
       address := fromAddress }]
  else
    [{ opIndex := (opsLen : Int)
       status := StatusSuccess
       opType := OpErc20Transfer
       amount := some (Erc20Amount transferLog.data currency true)
       address := fromAddress },
     { opIndex := ((opsLen : Int) + 1)
       status := StatusSuccess
       opType := OpErc20Transfer
       amount := some (Erc20Amount transferLog.data currency false)
       address := toAddress
       relatedOps := [(opsLen : Int)] }]

/-- Source `erc721Ops`: decodes an ERC721-shaped transfer log into mint, burn
or a linked send/receive pair; no amount, token id in metadata. -/
def erc721Ops (bytesToAddress : String → String) (transferLog : Log)
    (opsLen : Nat) : List Operation :=
  let fromAddress := bytesToAddress (transferLog.topics.getD 1 "")
  let toAddress := bytesToAddress (transferLog.topics.getD 2 "")
  let md := OpMeta.erc721Meta transferLog.address (transferLog.topics.getD 3 "")
  if fromAddress == zeroAddress then
    [{ opIndex := (opsLen : Int)
       status := StatusSuccess
       opType := OpErc721Mint
       address := toAddress
       opMeta := md }]
  else if toAddress == zeroAddress then
    [{ opIndex := (opsLen : Int)
       status := StatusSuccess
       opType := OpErc721Burn
       address := fromAddress
       opMeta := md }]
  else
    [{ opIndex := (opsLen : Int)
       status := StatusSuccess
       opType := OpErc721TransferSender
       address := fromAddress
       opMeta := md },
     { opIndex := ((opsLen : Int) + 1)
       status := StatusSuccess
       opType := OpErc721TransferReceive
       address := toAddress
       opMeta := md
       relatedOps := [(opsLen : Int)] }]

/-- Errors surfaced by the transaction assembler: a propagated client error,
or the fatal halt of the trace stage (`log.Fatalf`, which terminates the Go
process before any value is returned). -/
inductive MapperError (epsilon : Type) where
  | client (e : epsilon)
  | fatalLedger
  deriving Repr, DecidableEq

/-- The receipt-log loop of `Transaction`: identifies transfer-shaped logs,
applies the whitelist and unknown-token gating, resolves contract metadata
through the client and appends the token operations. -/
def processLogs {epsilon : Type}
    (client : String → Bool → Except epsilon (String × Nat))
    (bytesToAddress : String → String)
    (isAnalyticsMode : Bool) (standardModeWhiteList : List String)
    (includeUnknownTokens : Bool)
    (logs : List Log) (ops : List Operation) : Except epsilon (List Operation) :=
  match logs with
  | [] => .ok ops
  | log :: rest =>
    match log.topics with
    | [] => processLogs client bytesToAddress isAnalyticsMode standardModeWhiteList includeUnknownTokens rest ops
    | t0 :: _ =>
      if t0 != transferMethodHash then
        processLogs client bytesToAddress isAnalyticsMode standardModeWhiteList includeUnknownTokens rest ops
      else if !isAnalyticsMode && !EqualFoldContains standardModeWhiteList log.address then
        processLogs client bytesToAddress isAnalyticsMode standardModeWhiteList includeUnknownTokens rest ops
      else if log.topics.length == topicsInErc721Transfer then
        match client log.address false with
        | .error e => .error e
        | .ok (symbol, _) =>
          if symbol == UnknownERC721Symbol && !includeUnknownTokens then
            processLogs client bytesToAddress isAnalyticsMode standardModeWhiteList includeUnknownTokens rest ops
          else
            processLogs client bytesToAddress isAnalyticsMode standardModeWhiteList includeUnknownTokens rest
              (ops ++ erc721Ops bytesToAddress log ops.length)
      else if log.topics.length == topicsInErc20Transfer then
        match client log.address true with
        | .error e => .error e
        | .ok (symbol, decimals) =>
          if symbol == UnknownERC20Symbol && !includeUnknownTokens then
            processLogs client bytesToAddress isAnalyticsMode standardModeWhiteList includeUnknownTokens rest ops
          else
            processLogs client bytesToAddress isAnalyticsMode standardModeWhiteList includeUnknownTokens rest
              (ops ++ erc20Ops bytesToAddress log (ToCurrency symbol decimals log.address) ops.length)
      else
        processLogs client bytesToAddress isAnalyticsMode standardModeWhiteList includeUnknownTokens rest ops

/-- The two fee operations emitted first for every ordinary transaction. -/
def feeOps (sender feeReceiver : String) (txFee : Int) : List Operation :=
  [{ opIndex := 0
     opType := OpFee
     status := StatusSuccess
     address := sender
     amount := some (AvaxAmount (-txFee)) },
   { opIndex := 1
     relatedOps := [0]
     opType := OpFee
     status := StatusSuccess
     address := feeReceiver
     amount := some (AvaxAmount txFee) }]

/-- The assembled protocol transaction record.  The raw receipt and trace
blobs the source attaches as uninterpreted metadata are not modelled. -/
structure TxRecord where
  hash : String
  operations : List Operation
  gas : Nat
  gasPrice : Int
  txType : Nat
  deriving Repr, DecidableEq

/-- Source `Transaction`: fee operations at indices 0 and 1, then trace
operations, then token operations for qualifying logs.  The sender, fee
receiver, gas figures and transaction attributes are passed as the scalar
fields the source reads from `msg`, `header`, `receipt` and `tx`. -/
def Transaction {epsilon : Type}
    (client : String → Bool → Except epsilon (String × Nat))
    (bytesToAddress : String → String)
    (sender feeReceiver : String) (gasUsed : Nat) (msgGasPrice : Int)
    (txHash : String) (txGas : Nat) (txGasPrice : Int) (txType : Nat)
    (flattenedTrace : List FlatCall) (logs : List Log)
    (isAnalyticsMode : Bool) (standardModeWhiteList : List String)
    (includeUnknownTokens : Bool) :
    Except (MapperError epsilon) TxRecord :=
  let txFee := (gasUsed : Int) * msgGasPrice
  let fOps := feeOps sender feeReceiver txFee
  match traceOps flattenedTrace fOps.length with
  | none => .error .fatalLedger
  | some tOps =>
    match processLogs client bytesToAddress isAnalyticsMode standardModeWhiteList
        includeUnknownTokens logs (fOps ++ tOps) with
    | .error e => .error (.client e)
    | .ok allOps =>
      .ok { hash := txHash
            operations := allOps
            gas := txGas
            gasPrice := txGasPrice
            txType := txType }

/-- An imported input of an atomic import transaction.  The source reads only
the source transaction id and the amount; the asset id is carried by the
underlying `TransferableInput` but never inspected by this code path. -/
structure ImportedInput where
  txID : String
  assetID : String
  amount : Nat
  deriving Repr, DecidableEq

/-- An EVM-side output of an atomic import transaction. -/
structure ImportOut where
  address : String
  amount : Nat
  assetID : String
  deriving Repr, DecidableEq

/-- An EVM-side input of an atomic export transaction. -/
structure ExportIn where
  address : String
  amount : Nat
  assetID : String
  deriving Repr, DecidableEq

/-- An exported output of an atomic export transaction
(`avax.TransferableOutput` holding a `secp256k1fx.TransferOutput`).  The asset
id is carried by the data but not inspected by `createExportedOuts`. -/
structure ExportedOut where
  addrs : List String
  amount : Nat
  assetID : String
  deriving Repr, DecidableEq

/-- An atomic cross-chain transaction, as the tagged variant over the two
unsigned kinds dispatched by the source type switch.  `txID` is the canonical
id computed from the signed form (`t.ID()`); the signing step itself is
irrelevant to this core and not modelled.  `exportedOutputs = none` models a
nil `ExportedOutputs` slice. -/
inductive AtomicTx where
  | importTx (txID blockchainID : String) (networkID : Nat) (sourceChain : String)
      (importedInputs : List ImportedInput) (outs : List ImportOut)
  | exportTx (txID blockchainID : String) (networkID : Nat) (destinationChain : String)
      (ins : List ExportIn) (exportedOutputs : Option (List ExportedOut))
  deriving Repr, DecidableEq

/-- Result of mapping one atomic transaction: the native-asset operations, the
exported-output operations stored under the `exported_outputs` metadata key
(absent when the source never sets that key), and the `tx_fee` metadata
value. -/
structure CCResult where
  ops : List Operation
  exportedOutputs : Option (List Operation)
  txFee : Int
  deriving Repr, DecidableEq

/-- Source `createExportedOuts`: one export operation per exported output,
tagged with the coin-created UTXO id `(txID, outputIndex)`, in atomic-unit
currency, plus the total exported amount.  `formatAddr` models the bech32
`address.Format` with the chain alias and HRP already applied; the source
propagates its encoding error, which cannot occur in this total model. -/
def createExportedOutsLoop (formatAddr : String → String) (txID : String)
    (outIndex : Nat) (exportedOuts : List ExportedOut) : List Operation × Int :=
  match exportedOuts with
  | [] => ([], 0)
  | out :: rest =>
    let addr := match out.addrs with
      | [] => ""
      | a :: _ => formatAddr a
    let r := createExportedOutsLoop formatAddr txID (outIndex + 1) rest
    ({ opIndex := 0
       opType := OpExport
       status := StatusSuccess
       address := addr
       amount := some (AtomicAvaxAmount (out.amount : Int))
       coinChange := some ⟨txID, outIndex⟩ } :: r.1,
     (out.amount : Int) + r.2)

/-- Source `createExportedOuts`, starting at output index 0. -/
def createExportedOuts (formatAddr : String → String) (txID : String)
    (exportedOuts : List ExportedOut) : List Operation × Int :=
  createExportedOutsLoop formatAddr txID 0 exportedOuts

/-- Output loop of the import branch: one import operation per native-asset
output, scaling the atomic amount to whole units, and the running atomic
output total. -/
def importOutsLoop (txID : String) (txIDs : List String) (blockchainID : String)
    (networkID : Nat) (sourceChain avaxAssetID : String) (idx : Int)
    (outs : List ImportOut) : List Operation × Int :=
  match outs with
  | [] => ([], 0)
  | out :: rest =>
    if out.assetID != avaxAssetID then
      importOutsLoop txID txIDs blockchainID networkID sourceChain avaxAssetID idx rest
    else
      let r :=
        importOutsLoop txID txIDs blockchainID networkID sourceChain avaxAssetID (idx + 1) rest
      ({ opIndex := idx
         opType := OpImport
         status := StatusSuccess
         address := out.address
         amount := some (AvaxAmount ((out.amount : Int) * X2crate))
         opMeta := .importMeta txID txIDs blockchainID networkID sourceChain out.assetID } :: r.1,
       (out.amount : Int) + r.2)

/-- Accumulator of the export-branch input loop: the native-asset export
operations, the accumulated exported-output operations, the running input and
output totals, and whether the `exported_outputs` metadata key was set. -/
structure ExportAcc where
  ops : List Operation
  eouts : List Operation
  tin : Int
  tout : Int
  eset : Bool
  deriving Repr, DecidableEq

/-- Input loop of the export branch.  The source re-appends the
(loop-invariant) `createExportedOuts` result once per native-asset input;
`expOperations`/`totalExported` are that invariant result, and `withExports`
is the loop-invariant guard `t.ExportedOutputs != nil && ok`. -/
def exportInsLoop (txID : String) (blockchainID : String) (networkID : Nat)
    (destinationChain avaxAssetID : String) (withExports : Bool)
    (expOperations : List Operation) (totalExported : Int) (idx : Int)
    (ins : List ExportIn) : ExportAcc :=
  match ins with
  | [] => ⟨[], [], 0, 0, false⟩
  | inp :: rest =>
    if inp.assetID != avaxAssetID then
      exportInsLoop txID blockchainID networkID destinationChain avaxAssetID
        withExports expOperations totalExported idx rest
    else
      let r :=
        exportInsLoop txID blockchainID networkID destinationChain avaxAssetID
          withExports expOperations totalExported (idx + 1) rest
      { ops := { opIndex := idx
                 opType := OpExport
                 status := StatusSuccess
                 address := inp.address
                 amount := some (AvaxAmount ((inp.amount : Int) * (-X2crate)))
                 opMeta := .exportMeta txID blockchainID networkID destinationChain inp.assetID } :: r.ops
        eouts := (if withExports then expOperations ++ r.eouts else r.eouts)
        tin := (inp.amount : Int) + r.tin
        tout := (if withExports then totalExported + r.tout else r.tout)
        eset := (withExports || r.eset) }

/-- Source `crossChainTransaction`.  `mapRange` models Go map iteration over
the deduplicating set of imported-input transaction ids: the runtime
enumerates the keys in an unspecified order, so the model takes the
enumeration as a parameter; an admissible enumeration is any permutation of
the deduplicated key list.  `aliasOf` is the chain-id-to-alias lookup,
`formatAddr` the alias/HRP address formatting.  The final loop assigns the
deferred operation identifiers to the exported-output operations, sequentially
after the last native-asset operation. -/
def crossChainTransaction (mapRange : List String → List String)
    (aliasOf : String → Option String) (formatAddr : String → String)
    (rawIdx : Nat) (avaxAssetID : String) (tx : AtomicTx) : CCResult :=
  match tx with
  | .importTx txID blockchainID networkID sourceChain importedInputs outs =>
    let txIDs := mapRange (importedInputs.map (fun i => i.txID))
    let totalInputAmount :=
      importedInputs.foldl (fun acc inp => acc + toInt64 inp.amount) 0
    let r :=
      importOutsLoop txID txIDs blockchainID networkID sourceChain avaxAssetID
        ((rawIdx : Nat) : Int) outs
    { ops := r.1
      exportedOutputs := none
      txFee := totalInputAmount - r.2 }
  | .exportTx txID blockchainID networkID destinationChain ins exportedOutputs =>
    let withExports := (aliasOf destinationChain).isSome && exportedOutputs.isSome
    let ce := createExportedOuts formatAddr txID (exportedOutputs.getD [])
    let r :=
      exportInsLoop txID blockchainID networkID destinationChain avaxAssetID
        withExports ce.1 ce.2 ((rawIdx : Nat) : Int) ins
    let idxAfter : Int := (rawIdx : Int) + r.ops.length
    let indexed :=
      (List.range r.eouts.length).zipWith
        (fun i op => { op with opIndex := idxAfter + (i : Int) }) r.eouts
    { ops := r.ops
      exportedOutputs := if r.eset then some indexed else none
      txFee := r.tin - r.tout }

/-- Definition following the claim wording, for comparison with the source:
the fee as the sum of native-asset input amounts minus the sum of
native-asset output amounts, inputs and outputs of any other asset excluded
entirely from both sums. -/
def specNativeFee (avaxAssetID : String) : AtomicTx → Int
  | .importTx _ _ _ _ ins outs =>
    ((ins.filter (fun i => i.assetID == avaxAssetID)).map (fun i => (i.amount : Int))).sum -
      ((outs.filter (fun o => o.assetID == avaxAssetID)).map (fun o => (o.amount : Int))).sum
  | .exportTx _ _ _ _ ins eouts =>
    ((ins.filter (fun i => i.assetID == avaxAssetID)).map (fun i => (i.amount : Int))).sum -
      (((eouts.getD []).filter (fun o => o.assetID == avaxAssetID)).map (fun o => (o.amount : Int))).sum

/-- Closed-form restatement of the fee the source actually computes (the
amended claim): imports sum every input through the `int64` conversion and
subtract only native-asset outputs; exports sum native-asset inputs and
subtract the exported-output total once per native-asset input, provided
exported outputs are declared and the destination alias is known. -/
def codeTxFee (aliasOf : String → Option String) (avaxAssetID : String) : AtomicTx → Int
  | .importTx _ _ _ _ ins outs =>
    (ins.map (fun i => toInt64 i.amount)).sum -
      ((outs.filter (fun o => o.assetID == avaxAssetID)).map (fun o => (o.amount : Int))).sum
  | .exportTx _ _ _ destinationChain ins eouts =>
    let natIns := ins.filter (fun i => i.assetID == avaxAssetID)
    (natIns.map (fun i => (i.amount : Int))).sum -
      (if (aliasOf destinationChain).isSome && eouts.isSome then
        (natIns.length : Int) * ((eouts.getD []).map (fun o => (o.amount : Int))).sum
      else 0)

/-- The deduplicated source-transaction-id list carried by an import
operation's metadata, when the operation is an import operation. -/
def opTxIds (op : Operation) : Option (List String) :=
  match op.opMeta with
  | .importMeta _ txIds _ _ _ _ => some txIds
  | _ => none

/-- A log qualifies for token synthesis when it is transfer-shaped, passes
the whitelist gate and has an ERC20 or ERC721 topic count. -/
def qualifiesLog (isAnalyticsMode : Bool) (standardModeWhiteList : List String)
    (log : Log) : Bool :=
  match log.topics with
  | [] => false
  | t0 :: _ =>
    t0 == transferMethodHash &&
    (isAnalyticsMode || EqualFoldContains standardModeWhiteList log.address) &&
    (log.topics.length == topicsInErc721Transfer || log.topics.length == topicsInErc20Transfer)

/-- The contract-metadata lookup the log loop performs for a qualifying log. -/
def logLookup {epsilon : Type} (client : String → Bool → Except epsilon (String × Nat))
    (log : Log) : Except epsilon (String × Nat) :=
  client log.address (log.topics.length == topicsInErc20Transfer)

/-- The error of the first qualifying log whose contract-metadata lookup
fails, if any. -/
def firstLogErr {epsilon : Type} (client : String → Bool → Except epsilon (String × Nat))
    (isAnalyticsMode : Bool) (standardModeWhiteList : List String) :
    List Log → Option epsilon
  | [] => none
  | log :: rest =>
    if qualifiesLog isAnalyticsMode standardModeWhiteList log then
      match logLookup client log with
      | .error e => some e
      | .ok _ => firstLogErr client isAnalyticsMode standardModeWhiteList rest
    else firstLogErr client isAnalyticsMode standardModeWhiteList rest

/-- The contiguous index sequence starting at `s` of length `n`. -/
def idxSeq (s : Int) : Nat → List Int
  | 0 => []
  | n + 1 => idxSeq s n ++ [s + n]

/-- An operation list is index-contiguous from `s` when its indices are
exactly the sequence `s, s+1, ...`. -/
def IdxFrom (s : Int) (ops : List Operation) : Prop :=
  ops.map (fun o => o.opIndex) = idxSeq s ops.length

/-- Related-operation shape: every operation either carries no related
operations or exactly the link to the index right below its own. -/
def RelShape (ops : List Operation) : Prop :=
  ∀ op ∈ ops, op.relatedOps = [] ∨ op.relatedOps = [op.opIndex - 1]

/-- The first emitted operation never carries a related-operation link. -/
def HeadNoRel (ops : List Operation) : Prop :=
  ∀ op, ops.head? = some op → op.relatedOps = []

/-- The call trace of the specification's self-destruct example. -/
def exTrace6 : List FlatCall :=
  [⟨"CALL", "0xA", "0xB", 100, false, ""⟩,
   ⟨"SELFDESTRUCT", "0xB", "0xA", 0, false, ""⟩]

/-- What `traceOps` actually produces on `exTrace6`. -/
def exTrace6Out : List Operation :=
  [{ opIndex := 0, relatedOps := [], opType := "CALL", status := "SUCCESS",
     address := "0xA", amount := some ⟨-100, .avax⟩, opMeta := .traceMeta none },
   { opIndex := 1, relatedOps := [0], opType := "CALL", status := "SUCCESS",
     address := "0xB", amount := some ⟨100, .avax⟩, opMeta := .traceMeta none },
   { opIndex := 2, relatedOps := [], opType := "SELFDESTRUCT", status := "SUCCESS",
     address := "0xB", amount := none, opMeta := .traceMeta none },
   { opIndex := 3, relatedOps := [2], opType := "SELFDESTRUCT", status := "SUCCESS",
     address := "0xA", amount := none, opMeta := .traceMeta none }]

/-- A trace whose destroyed-account ledger finishes with a negative entry:
account 0xB self-destructs and then successfully pays value out, which is the
`log.Fatalf` path of the source. -/
def fatalTrace : List FlatCall :=
  [⟨"SELFDESTRUCT", "0xB", "0xC", 0, false, ""⟩,
   ⟨"CALL", "0xB", "0xD", 5, false, ""⟩]

/-- One admissible Go map enumeration: the deduplicated keys in first-insertion
order. -/
def dedupRange : List String → List String := fun l => l.dedup

/-- Another admissible Go map enumeration: the same keys in reverse. -/
def revDedupRange : List String → List String := fun l => l.dedup.reverse

/-- A chain-id-to-alias lookup knowing one destination chain. -/
def exAliasOf : String → Option String := fun c => if c == "DEST" then some "P" else none

/-- A concrete address formatter. -/
def exFormatAddr : String → String := fun s => "P-" ++ s

/-- An import transaction whose single input carries a non-native asset. -/
def exImportOther : AtomicTx := .importTx "T" "B" 1 "S" [⟨"t1", "OTHER", 5⟩] []

/-- An import transaction with a single native input of amount `2^63`. -/
def exImportWrap : AtomicTx := .importTx "T" "B" 1 "S" [⟨"t1", "AVAX", 2 ^ 63⟩] []

/-- An export transaction with two native-asset inputs and one declared
exported output destined for an aliased chain. -/
def exExportDup : AtomicTx :=
  .exportTx "T" "B" 1 "DEST" [⟨"0xI1", 10, "AVAX"⟩, ⟨"0xI2", 10, "AVAX"⟩]
    (some [⟨["r1"], 7, "AVAX"⟩])

/-- Two imported inputs with distinct source transaction ids. -/
def c8ins : List ImportedInput := [⟨"t1", "AVAX", 1⟩, ⟨"t2", "AVAX", 1⟩]

/-- An import transaction with two distinct imported-input source ids. -/
def c8tx : AtomicTx :=
  .importTx "T" "B" 1 "S" c8ins [⟨"0xO", 3, "AVAX"⟩]

/-- The import operation `c8tx` maps to under the `dedupRange` enumeration. -/
def c8op0 : Operation :=
  { opIndex := 0, opType := "IMPORT", status := "SUCCESS", address := "0xO",
    amount := some ⟨3000000000, .avax⟩,
    opMeta := .importMeta "T" ["t1", "t2"] "B" 1 "S" "AVAX" }

/-- A client whose contract-metadata lookup always fails. -/
def c9client : String → Bool → Except String (String × Nat) := fun _ _ => .error "boom"

/-- A qualifying ERC20-shaped transfer log. -/
def c9log : Log := ⟨"0xT", [transferMethodHash, "f", "t"], 1⟩

/-- A single-call trace used to witness the paired-link property. -/
def c5trace : List FlatCall := [⟨"CALL", "0xA", "0xB", 5, false, ""⟩]

/-- What `traceOps` produces on `c5trace` with start index 0. -/
def c5ops : List Operation :=
  [{ opIndex := 0, relatedOps := [], opType := "CALL", status := "SUCCESS",
     address := "0xA", amount := some ⟨-5, .avax⟩, opMeta := .traceMeta none },
   { opIndex := 1, relatedOps := [0], opType := "CALL", status := "SUCCESS",
     address := "0xB", amount := some ⟨5, .avax⟩, opMeta := .traceMeta none }]

/-- A client resolving every contract to a known token. -/
def okClient : String → Bool → Except String (String × Nat) := fun _ _ => .ok ("TOK", 18)

/-- The exported outputs an atomic transaction declares. -/
def declaredExportedOutputs : AtomicTx → Option (List ExportedOut)
  | .importTx _ _ _ _ _ _ => none
  | .exportTx _ _ _ _ _ e => e

/-- C6: on the trace `[CALL A B 100, SELFDESTRUCT B A 0]` the claim asserts a
three-operation result: the debit/credit pair, no operation for the
self-destruct call, and a trailing destruction operation of -100 on B.  The
source instead emits four operations (a zero-value self-destruct is not a
skipped value-transfer kind, so the self-destruct produces a linked pair with
absent amounts) and no destruction operation at all, because the self-destruct
zeroes B's ledger entry after the earlier credit.  This closed evaluation
refutes the claimed shape. -/
theorem c6_counterexample :
    (traceOps exTrace6 0).map List.length = some 4 ∧
    (traceOps exTrace6 0).map (fun l => l.countP (fun op => op.opType == OpDestruct)) = some 0 := by
  decide

/-- C6 amended: the trace `[CALL A B 100, SELFDESTRUCT B A 0]` yields the
debit(A,-100)/credit(B,+100) pair, then a linked SELFDESTRUCT-typed pair with
absent amounts (debit B at index 2, credit A at index 3 related to 2), and no
trailing account-destruction operation. -/
theorem c6_amended_eval : traceOps exTrace6 0 = some exTrace6Out := by decide

/-- C4: evaluation at the failing input.  The export transaction
`exExportDup` declares exactly one exported output, but because the source
appends the exported-output operations inside the loop over native-asset
inputs, a transaction with two native-asset inputs yields two copies of the
operation (sequentially indexed after the last native-asset operation). -/
theorem c4_exported_outputs_duplicated :
    ((crossChainTransaction dedupRange exAliasOf exFormatAddr 0 "AVAX" exExportDup).exportedOutputs).map List.length = some 2 ∧
    (declaredExportedOutputs exExportDup).map List.length = some 1 := by
  decide

/-- C10: the import branch converts each imported input amount through
`int64` before accumulation, so an input amount of `2^63` contributes
`-(2^63)` and the computed fee is negative instead of the exact unsigned sum
`2^63 - 0`. -/
theorem c10_import_amount_int64_wrap :
    (crossChainTransaction dedupRange exAliasOf exFormatAddr 0 "AVAX" exImportWrap).txFee = -(2 ^ 63) ∧
    (crossChainTransaction dedupRange exAliasOf exFormatAddr 0 "AVAX" exImportWrap).txFee < 0 ∧
    ((2 ^ 63 : Nat) : Int) - 0 = 2 ^ 63 := by
  decide

/-- C3 counterexample: an import transaction with a single non-native-asset
input of amount 5 and no outputs.  The claim's fee (native inputs minus
native outputs, non-native excluded) is 0, but the source sums every imported
input regardless of asset id and computes 5. -/
theorem c3_counterexample :
    (crossChainTransaction dedupRange exAliasOf exFormatAddr 0 "AVAX" exImportOther).txFee ≠
      specNativeFee "AVAX" exImportOther := by
  decide

/-- C8 counterexample: the deduplicated `tx_ids` list is produced by ranging
over a Go map, whose enumeration order is unspecified; two admissible
enumerations of the same transaction produce differently ordered lists, so the
list is not a deterministic function of the input set. -/
theorem c8_counterexample :
    (dedupRange ["t1", "t2"]).Perm (["t1", "t2"].dedup) ∧
    (revDedupRange ["t1", "t2"]).Perm (["t1", "t2"].dedup) ∧
    (crossChainTransaction dedupRange exAliasOf exFormatAddr 0 "AVAX" c8tx).ops.map opTxIds ≠
      (crossChainTransaction revDedupRange exAliasOf exFormatAddr 0 "AVAX" c8tx).ops.map opTxIds := by
  decide

/-- C9 counterexample: a transaction whose trace drives a destroyed-account
ledger entry negative halts the trace stage (the source's `log.Fatalf`),
so even though a qualifying transfer log's contract-metadata lookup fails
with error "boom", `Transaction` does not return that error. -/
theorem c9_counterexample :
    qualifiesLog true [] c9log = true ∧
    logLookup c9client c9log = .error "boom" ∧
    Transaction c9client (fun s => s) "0xS" "0xC" 0 0 "h" 0 0 0 fatalTrace [c9log] true [] true = .error .fatalLedger ∧
    Transaction c9client (fun s => s) "0xS" "0xC" 0 0 "h" 0 0 0 fatalTrace [c9log] true [] true ≠ .error (.client "boom") := by
  decide

theorem idxSeq_length (s : Int) : ∀ n, (idxSeq s n).length = n
  | 0 => rfl
  | n + 1 => by simp [idxSeq, idxSeq_length s n]

theorem idxFrom_nil (s : Int) : IdxFrom s [] := rfl

theorem idxFrom_append_one {s : Int} {ops : List Operation} {op : Operation}
    (h : IdxFrom s ops) (hop : op.opIndex = s + ops.length) :
    IdxFrom s (ops ++ [op]) := by
  unfold IdxFrom at h ⊢
  simp only [List.map_append, List.map_cons, List.map_nil, List.length_append,
    List.length_cons, List.length_nil, Nat.add_zero]
  rw [h, hop]
  rfl

theorem lastIndex_of_idxFrom {s : Int} {ops : List Operation}
    (h : IdxFrom s ops) : lastIndex ops (s - 1) = s + ops.length - 1 := by
  unfold IdxFrom at h
  unfold lastIndex
  have hm : (ops.map (fun o => o.opIndex)).getLast? = Option.map (fun o => o.opIndex) ops.getLast? :=
    List.getLast?_map _ ops
  rw [h] at hm
  cases hn : ops.length with
  | zero =>
    have : ops = [] := List.length_eq_zero.mp hn
    subst this
    simp
  | succ m =>
    rw [hn] at hm
    have hgl : (idxSeq s (m + 1)).getLast? = some (s + m) := by
      unfold idxSeq
      exact List.getLast?_concat _
    rw [hgl] at hm
    rw [← hm]
    simp
    ring

theorem idxFrom_traceStepTail {sN : Nat} {call : FlatCall} {opStatus : String}
    {metaErr : Option String} {zeroValue shouldAdd : Bool} {toA : String}
    {st : List Operation × Ledger}
    (h : IdxFrom (sN : Int) st.1) :
    IdxFrom (sN : Int) (traceStepTail sN call opStatus metaErr zeroValue shouldAdd toA st).1 := by
  simp only [traceStepTail]
  split
  · exact h
  · split
    · refine idxFrom_append_one h ?_
      show lastIndex st.1 ((sN : Int) - 1) + 1 = (sN : Int) + st.1.length
      rw [lastIndex_of_idxFrom h]
      omega
    · exact h

theorem idxFrom_traceStep {sN : Nat} {st : List Operation × Ledger} {call : FlatCall}
    (h : IdxFrom (sN : Int) st.1) :
    IdxFrom (sN : Int) (traceStep sN st call).1 := by
  have hops1 : ∀ (b : Bool) (ty opStatus : String) (metaErr : Option String) (zv : Bool),
      IdxFrom (sN : Int)
        (if b then st.1 ++ [fromOpOf sN st.1.length ty opStatus metaErr zv call.fromAddr call.value] else st.1) := by
    intro b ty opStatus metaErr zv
    cases b with
    | false => exact h
    | true =>
      refine idxFrom_append_one h ?_
      show ((st.1.length + sN : Nat) : Int) = (sN : Int) + st.1.length
      omega
  simp only [traceStep]
  split
  · split
    · exact hops1 _ _ _ _ _
    · exact idxFrom_traceStepTail (hops1 _ _ _ _ _)
  · exact idxFrom_traceStepTail (hops1 _ _ _ _ _)

theorem idxFrom_foldl {sN : Nat} :
    ∀ (calls : List FlatCall) (st : List Operation × Ledger),
      IdxFrom (sN : Int) st.1 →
      IdxFrom (sN : Int) (List.foldl (traceStep sN) st calls).1
  | [], _, h => h
  | c :: rest, st, h => idxFrom_foldl rest (traceStep sN st c) (idxFrom_traceStep h)

theorem idxFrom_liqLoop {sN : Nat} :
    ∀ (entries : Ledger) (ops res : List Operation),
      IdxFrom (sN : Int) ops → liqLoop sN entries ops = some res →
      IdxFrom (sN : Int) res
  | [], ops, res, h, heq => by
    simp only [liqLoop, Option.some.injEq] at heq
    exact heq ▸ h
  | (acct, val) :: rest, ops, res, h, heq => by
    simp only [liqLoop] at heq
    split at heq
    · exact idxFrom_liqLoop rest ops res h heq
    · split at heq
      · exact absurd heq (by simp)
      · refine idxFrom_liqLoop rest _ res ?_ heq
        refine idxFrom_append_one h ?_
        show lastIndex ops ((sN : Int) - 1) + 1 = (sN : Int) + ops.length
        rw [lastIndex_of_idxFrom h]
        omega

theorem traceOps_idxFrom {trace : List FlatCall} {sN : Nat} {ops : List Operation}
    (h : traceOps trace sN = some ops) : IdxFrom (sN : Int) ops := by
  unfold traceOps at h
  split at h
  · cases h
    exact idxFrom_nil _
  · exact idxFrom_liqLoop _ _ _ (idxFrom_foldl trace ([], []) (idxFrom_nil _)) h

theorem idxSeq_append (s : Int) (a : Nat) :
    ∀ b : Nat, idxSeq s a ++ idxSeq (s + (a : Int)) b = idxSeq s (a + b)
  | 0 => by simp [idxSeq]
  | b + 1 => by
    have ih := idxSeq_append s a b
    show idxSeq s a ++ (idxSeq (s + (a : Int)) b ++ [s + (a : Int) + (b : Int)]) =
      idxSeq s (a + b) ++ [s + ((a + b : Nat) : Int)]
    rw [← List.append_assoc, ih]
    congr 2
    push_cast
    ring

theorem idxFrom_append {s : Int} {A B : List Operation}
    (hA : IdxFrom s A) (hB : IdxFrom (s + (A.length : Int)) B) : IdxFrom s (A ++ B) := by
  unfold IdxFrom at hA hB ⊢
  rw [List.map_append, hA, hB, List.length_append, idxSeq_append]

theorem idxSeq_zero_eq_range : ∀ n : Nat, idxSeq 0 n = (List.range n).map (fun i => (i : Int))
  | 0 => rfl
  | n + 1 => by
    rw [show idxSeq 0 (n + 1) = idxSeq 0 n ++ [0 + (n : Int)] from rfl,
      idxSeq_zero_eq_range n, List.range_succ]
    simp

theorem erc20Ops_idxFrom (b2a : String → String) (log : Log) (cur : Currency) (n : Nat) :
    IdxFrom (n : Int) (erc20Ops b2a log cur n) := by
  simp only [erc20Ops]
  split_ifs <;> simp [IdxFrom, idxSeq]

theorem erc721Ops_idxFrom (b2a : String → String) (log : Log) (n : Nat) :
    IdxFrom (n : Int) (erc721Ops b2a log n) := by
  simp only [erc721Ops]
  split_ifs <;> simp [IdxFrom, idxSeq]

theorem processLogs_idxFrom {epsilon : Type}
    (client : String → Bool → Except epsilon (String × Nat)) (b2a : String → String)
    (mode : Bool) (wl : List String) (inc : Bool) :
    ∀ (logs : List Log) (ops res : List Operation),
      IdxFrom 0 ops → processLogs client b2a mode wl inc logs ops = .ok res →
      IdxFrom 0 res := by
  intro logs
  induction logs with
  | nil =>
    intro ops res h heq
    simp only [processLogs, Except.ok.injEq] at heq
    exact heq ▸ h
  | cons log rest ih =>
    intro ops res h heq
    simp only [processLogs] at heq
    split at heq
    · exact ih _ _ h heq
    · split at heq
      · exact ih _ _ h heq
      · split at heq
        · exact ih _ _ h heq
        · split at heq
          · split at heq
            · cases heq
            · split at heq
              · exact ih _ _ h heq
              · refine ih _ _ (idxFrom_append h ?_) heq
                simpa using erc721Ops_idxFrom b2a log ops.length
          · split at heq
            · split at heq
              · cases heq
              · split at heq
                · exact ih _ _ h heq
                · refine ih _ _ (idxFrom_append h ?_) heq
                  simpa using erc20Ops_idxFrom b2a log _ ops.length
            · exact ih _ _ h heq

theorem processLogs_extends {epsilon : Type}
    (client : String → Bool → Except epsilon (String × Nat)) (b2a : String → String)
    (mode : Bool) (wl : List String) (inc : Bool) :
    ∀ (logs : List Log) (ops res : List Operation),
      processLogs client b2a mode wl inc logs ops = .ok res →
      ∃ ext, res = ops ++ ext := by
  intro logs
  induction logs with
  | nil =>
    intro ops res heq
    simp only [processLogs, Except.ok.injEq] at heq
    exact ⟨[], by simp [heq]⟩
  | cons log rest ih =>
    intro ops res heq
    simp only [processLogs] at heq
    split at heq
    · exact ih _ _ heq
    · split at heq
      · exact ih _ _ heq
      · split at heq
        · exact ih _ _ heq
        · split at heq
          · split at heq
            · cases heq
            · split at heq
              · exact ih _ _ heq
              · obtain ⟨ext, hext⟩ := ih _ _ heq
                exact ⟨_, by rw [hext, List.append_assoc]⟩
          · split at heq
            · split at heq
              · cases heq
              · split at heq
                · exact ih _ _ heq
                · obtain ⟨ext, hext⟩ := ih _ _ heq
                  exact ⟨_, by rw [hext, List.append_assoc]⟩
            · exact ih _ _ heq

theorem feeOps_idxFrom (sender feeReceiver : String) (txFee : Int) :
    IdxFrom 0 (feeOps sender feeReceiver txFee) := by
  simp [IdxFrom, feeOps, idxSeq]

/-- C1: for every ordinary transaction assembled by `Transaction` (any
receipt logs, any flattened trace), the operation indices of the full emitted
sequence are exactly `0..n-1`, gap-free, ascending, with no repeats, across
the fee stage, the trace stage and the token-log stage. -/
theorem c1_operation_indices {epsilon : Type}
    (client : String → Bool → Except epsilon (String × Nat)) (bytesToAddress : String → String)
    (sender feeReceiver : String) (gasUsed : Nat) (msgGasPrice : Int)
    (txHash : String) (txGas : Nat) (txGasPrice : Int) (txType : Nat)
    (flattenedTrace : List FlatCall) (logs : List Log)
    (isAnalyticsMode : Bool) (standardModeWhiteList : List String) (includeUnknownTokens : Bool)
    (rec : TxRecord)
    (h : Transaction client bytesToAddress sender feeReceiver gasUsed msgGasPrice txHash txGas
      txGasPrice txType flattenedTrace logs isAnalyticsMode standardModeWhiteList
      includeUnknownTokens = .ok rec) :
    rec.operations.map (fun o => o.opIndex) =
      (List.range rec.operations.length).map (fun i => (i : Int)) := by
  simp only [Transaction] at h
  cases htr : traceOps flattenedTrace
      (feeOps sender feeReceiver ((gasUsed : Int) * msgGasPrice)).length with
  | none => rw [htr] at h; cases h
  | some tOps =>
    rw [htr] at h
    simp only [] at h
    cases hpl : processLogs client bytesToAddress isAnalyticsMode standardModeWhiteList
        includeUnknownTokens logs
        (feeOps sender feeReceiver ((gasUsed : Int) * msgGasPrice) ++ tOps) with
    | error e => rw [hpl] at h; cases h
    | ok allOps =>
      rw [hpl] at h
      simp only [Except.ok.injEq] at h
      have hfee := feeOps_idxFrom sender feeReceiver ((gasUsed : Int) * msgGasPrice)
      have hlen : (feeOps sender feeReceiver ((gasUsed : Int) * msgGasPrice)).length = 2 := rfl
      rw [hlen] at htr
      have htOps := traceOps_idxFrom htr
      have hcomb : IdxFrom 0 (feeOps sender feeReceiver ((gasUsed : Int) * msgGasPrice) ++ tOps) := by
        refine idxFrom_append hfee ?_
        rw [hlen]
        simpa using htOps
      have hall := processLogs_idxFrom client bytesToAddress isAnalyticsMode
        standardModeWhiteList includeUnknownTokens logs _ allOps hcomb hpl
      rw [← h]
      rw [← idxSeq_zero_eq_range]
      exact hall

/-- The record produced by `Transaction` on a transaction with empty trace
and no logs. -/
def c1rec : TxRecord :=
  { hash := "0xH"
    operations :=
      [{ opIndex := 0, opType := "FEE", status := "SUCCESS", address := "0xS",
         amount := some ⟨-525000, .avax⟩ },
       { opIndex := 1, relatedOps := [0], opType := "FEE", status := "SUCCESS",
         address := "0xC", amount := some ⟨525000, .avax⟩ }]
    gas := 21000
    gasPrice := 25
    txType := 0 }

/-- Witness for C1 at a concrete transaction. -/
theorem c1_witness :
    c1rec.operations.map (fun o => o.opIndex) =
      (List.range c1rec.operations.length).map (fun i => (i : Int)) :=
  c1_operation_indices okClient (fun s => s) "0xS" "0xC" 21000 25 "0xH" 21000 25 0
    [] [] true [] true c1rec (by decide)

/-- C2: for every transaction, fee synthesis emits exactly two success
operations first: at index 0 a debit of `gasUsed * gasPrice` from the sender
with no related-operation link, at index 1 a credit of the same fee to the
block's fee receiver with related operations `[0]`. -/
theorem c2_fee_operations {epsilon : Type}
    (client : String → Bool → Except epsilon (String × Nat)) (bytesToAddress : String → String)
    (sender feeReceiver : String) (gasUsed : Nat) (msgGasPrice : Int)
    (txHash : String) (txGas : Nat) (txGasPrice : Int) (txType : Nat)
    (flattenedTrace : List FlatCall) (logs : List Log)
    (isAnalyticsMode : Bool) (standardModeWhiteList : List String) (includeUnknownTokens : Bool)
    (rec : TxRecord)
    (h : Transaction client bytesToAddress sender feeReceiver gasUsed msgGasPrice txHash txGas
      txGasPrice txType flattenedTrace logs isAnalyticsMode standardModeWhiteList
      includeUnknownTokens = .ok rec) :
    rec.operations.take 2 =
      [{ opIndex := 0, relatedOps := [], opType := OpFee, status := StatusSuccess,
         address := sender, amount := some (AvaxAmount (-((gasUsed : Int) * msgGasPrice))),
         coinChange := none, opMeta := .noMeta },
       { opIndex := 1, relatedOps := [0], opType := OpFee, status := StatusSuccess,
         address := feeReceiver, amount := some (AvaxAmount ((gasUsed : Int) * msgGasPrice)),
         coinChange := none, opMeta := .noMeta }] := by
  simp only [Transaction] at h
  cases htr : traceOps flattenedTrace
      (feeOps sender feeReceiver ((gasUsed : Int) * msgGasPrice)).length with
  | none => rw [htr] at h; cases h
  | some tOps =>
    rw [htr] at h
    simp only [] at h
    cases hpl : processLogs client bytesToAddress isAnalyticsMode standardModeWhiteList
        includeUnknownTokens logs
        (feeOps sender feeReceiver ((gasUsed : Int) * msgGasPrice) ++ tOps) with
    | error e => rw [hpl] at h; cases h
    | ok allOps =>
      rw [hpl] at h
      simp only [Except.ok.injEq] at h
      obtain ⟨ext, hext⟩ := processLogs_extends client bytesToAddress isAnalyticsMode
        standardModeWhiteList includeUnknownTokens logs _ allOps hpl
      rw [← h]
      simp only [hext, feeOps, List.append_assoc]
      rfl

/-- Witness for C2: `gasUsed = 21000`, `gasPrice = 25` yields fee amounts
`-525000` and `+525000` at indices 0 and 1. -/
theorem c2_witness :
    c1rec.operations.take 2 =
      [{ opIndex := 0, relatedOps := [], opType := OpFee, status := StatusSuccess,
         address := "0xS", amount := some (AvaxAmount (-525000)),
         coinChange := none, opMeta := .noMeta },
       { opIndex := 1, relatedOps := [0], opType := OpFee, status := StatusSuccess,
         address := "0xC", amount := some (AvaxAmount 525000),
         coinChange := none, opMeta := .noMeta }] := by
  have h := c2_fee_operations okClient (fun s => s) "0xS" "0xC" 21000 25 "0xH" 21000 25 0
    [] [] true [] true c1rec (by decide)
  exact h.trans (by decide)

theorem relShape_append {ops : List Operation} {op : Operation}
    (h : RelShape ops) (hop : op.relatedOps = [] ∨ op.relatedOps = [op.opIndex - 1]) :
    RelShape (ops ++ [op]) := by
  intro o ho
  rcases List.mem_append.mp ho with h1 | h1
  · exact h o h1
  · rw [List.mem_singleton.mp h1]
    exact hop

theorem headNoRel_append {ops : List Operation} {op : Operation}
    (h : HeadNoRel ops) (hop : ops = [] → op.relatedOps = []) :
    HeadNoRel (ops ++ [op]) := by
  intro o ho
  cases ops with
  | nil =>
    simp only [List.nil_append, List.head?_cons, Option.some.injEq] at ho
    rw [← ho]
    exact hop rfl
  | cons a rest =>
    simp only [List.cons_append, List.head?_cons, Option.some.injEq] at ho
    rw [← ho]
    exact h a rfl

theorem c5inv_traceStepTail {sN : Nat} {call : FlatCall} {opStatus : String}
    {metaErr : Option String} {zeroValue shouldAdd : Bool} {toA : String}
    {st : List Operation × Ledger}
    (h : RelShape st.1 ∧ HeadNoRel st.1) (hne : shouldAdd = true → st.1 ≠ []) :
    RelShape (traceStepTail sN call opStatus metaErr zeroValue shouldAdd toA st).1 ∧
      HeadNoRel (traceStepTail sN call opStatus metaErr zeroValue shouldAdd toA st).1 := by
  simp only [traceStepTail]
  split
  · exact h
  · split
    · next hadd =>
      constructor
      · refine relShape_append h.1 (Or.inr ?_)
        show [lastIndex st.1 ((sN : Int) - 1)] = [lastIndex st.1 ((sN : Int) - 1) + 1 - 1]
        simp
      · exact headNoRel_append h.2 (fun hnil => absurd hnil (hne hadd))
    · exact h

theorem c5inv_traceStep {sN : Nat} {st : List Operation × Ledger} {call : FlatCall}
    (h : RelShape st.1 ∧ HeadNoRel st.1) :
    RelShape (traceStep sN st call).1 ∧ HeadNoRel (traceStep sN st call).1 := by
  have key : ∀ (b : Bool) (ty opStatus : String) (metaErr : Option String) (zv : Bool),
      (RelShape (if b then st.1 ++ [fromOpOf sN st.1.length ty opStatus metaErr zv call.fromAddr call.value] else st.1) ∧
        HeadNoRel (if b then st.1 ++ [fromOpOf sN st.1.length ty opStatus metaErr zv call.fromAddr call.value] else st.1)) ∧
      (b = true →
        (if b then st.1 ++ [fromOpOf sN st.1.length ty opStatus metaErr zv call.fromAddr call.value] else st.1) ≠ []) := by
    intro b ty o m z
    cases b with
    | false =>
      refine ⟨by simpa using h, ?_⟩
      intro hc
      cases hc
    | true =>
      refine ⟨⟨relShape_append h.1 (Or.inl rfl), headNoRel_append h.2 (fun _ => rfl)⟩, ?_⟩
      intro _
      simp
  simp only [traceStep]
  split
  · split
    · exact (key _ _ _ _ _).1
    · exact c5inv_traceStepTail (key _ _ _ _ _).1 (key _ _ _ _ _).2
  · exact c5inv_traceStepTail (key _ _ _ _ _).1 (key _ _ _ _ _).2

theorem c5inv_foldl {sN : Nat} :
    ∀ (calls : List FlatCall) (st : List Operation × Ledger),
      RelShape st.1 ∧ HeadNoRel st.1 →
      RelShape (List.foldl (traceStep sN) st calls).1 ∧
        HeadNoRel (List.foldl (traceStep sN) st calls).1
  | [], _, h => h
  | c :: rest, st, h => c5inv_foldl rest (traceStep sN st c) (c5inv_traceStep h)

theorem c5inv_liqLoop {sN : Nat} :
    ∀ (entries : Ledger) (ops res : List Operation),
      RelShape ops ∧ HeadNoRel ops → liqLoop sN entries ops = some res →
      RelShape res ∧ HeadNoRel res
  | [], ops, res, h, heq => by
    simp only [liqLoop, Option.some.injEq] at heq
    exact heq ▸ h
  | (acct, val) :: rest, ops, res, h, heq => by
    simp only [liqLoop] at heq
    split at heq
    · exact c5inv_liqLoop rest ops res h heq
    · split at heq
      · exact absurd heq (by simp)
      · refine c5inv_liqLoop rest _ res ?_ heq
        exact ⟨relShape_append h.1 (Or.inl rfl), headNoRel_append h.2 (fun _ => rfl)⟩

theorem traceOps_c5inv {trace : List FlatCall} {sN : Nat} {ops : List Operation}
    (h : traceOps trace sN = some ops) : RelShape ops ∧ HeadNoRel ops := by
  unfold traceOps at h
  split at h
  · cases h
    exact ⟨fun op hop => absurd hop (List.not_mem_nil op), fun op hop => by cases hop⟩
  · refine c5inv_liqLoop _ _ _ ?_ h
    exact c5inv_foldl trace ([], [])
      ⟨fun op hop => absurd hop (List.not_mem_nil op), fun op hop => by cases hop⟩

theorem idxSeq_get? (s : Int) : ∀ (n i : Nat), i < n → (idxSeq s n).get? i = some (s + i)
  | 0, i, h => absurd h (Nat.not_lt_zero i)
  | n + 1, i, h => by
    rcases Nat.lt_succ_iff_lt_or_eq.mp h with h1 | h1
    · show (idxSeq s n ++ [s + n]).get? i = some (s + i)
      rw [List.get?_append (by rw [idxSeq_length]; exact h1)]
      exact idxSeq_get? s n i h1
    · subst h1
      show (idxSeq s i ++ [s + i]).get? i = some (s + i)
      have hc := List.get?_concat_length (idxSeq s i) (s + i)
      rwa [idxSeq_length] at hc

theorem pairedLink_of_inv {s : Int} {ops : List Operation}
    (hI : IdxFrom s ops) (hR : RelShape ops) (hH : HeadNoRel ops) :
    ∀ (i : Nat) (op : Operation), ops.get? i = some op → op.relatedOps ≠ [] →
      0 < i ∧ (ops.get? (i - 1)).map (fun p => [p.opIndex]) = some op.relatedOps := by
  intro i op hget hrel
  have hmem : op ∈ ops := List.get?_mem hget
  have hshape := (hR op hmem).resolve_left hrel
  have hi : i < ops.length := by
    by_contra hc
    push_neg at hc
    rw [List.get?_eq_none.mpr hc] at hget
    cases hget
  have hidx : op.opIndex = s + i := by
    have h1 : (ops.map (fun o => o.opIndex)).get? i = some (s + i) := by
      rw [hI, idxSeq_get? s ops.length i hi]
    rw [List.get?_map, hget] at h1
    simpa using h1
  have hpos : 0 < i := by
    rcases Nat.eq_zero_or_pos i with h0 | h0
    · subst h0
      have hh : ops.head? = some op := by
        rw [← List.get?_zero]
        exact hget
      exact absurd (hH op hh) hrel
    · exact h0
  refine ⟨hpos, ?_⟩
  have hi1 : i - 1 < ops.length := lt_of_le_of_lt (Nat.sub_le i 1) hi
  obtain ⟨prev, hprev⟩ : ∃ p, ops.get? (i - 1) = some p := by
    cases hp : ops.get? (i - 1) with
    | none =>
      rw [List.get?_eq_none] at hp
      omega
    | some p => exact ⟨p, rfl⟩
  have hpidx : prev.opIndex = s + ((i - 1 : Nat) : Int) := by
    have h1 : (ops.map (fun o => o.opIndex)).get? (i - 1) = some (s + ((i - 1 : Nat) : Int)) := by
      rw [hI, idxSeq_get? s ops.length (i - 1) hi1]
    rw [List.get?_map, hprev] at h1
    simpa using h1
  rw [hprev]
  simp only [Option.map_some']
  rw [hshape, hidx, hpidx]
  have harith : s + ((i - 1 : Nat) : Int) = s + (i : Int) - 1 := by omega
  rw [harith]

theorem erc20Ops_c5inv (b2a : String → String) (log : Log) (cur : Currency) (n : Nat) :
    RelShape (erc20Ops b2a log cur n) ∧ HeadNoRel (erc20Ops b2a log cur n) := by
  simp only [erc20Ops]
  split_ifs <;> constructor <;> intro op hop <;>
    simp only [List.mem_singleton, List.mem_cons, List.not_mem_nil, or_false,
      List.head?_cons, Option.some.injEq] at hop
  · rw [hop]; left; rfl
  · rw [← hop]
  · rw [hop]; left; rfl
  · rw [← hop]
  · rcases hop with hop | hop
    · rw [hop]; left; rfl
    · rw [hop]; right; simp
  · rw [← hop]

theorem erc721Ops_c5inv (b2a : String → String) (log : Log) (n : Nat) :
    RelShape (erc721Ops b2a log n) ∧ HeadNoRel (erc721Ops b2a log n) := by
  simp only [erc721Ops]
  split_ifs <;> constructor <;> intro op hop <;>
    simp only [List.mem_singleton, List.mem_cons, List.not_mem_nil, or_false,
      List.head?_cons, Option.some.injEq] at hop
  · rw [hop]; left; rfl
  · rw [← hop]
  · rw [hop]; left; rfl
  · rw [← hop]
  · rcases hop with hop | hop
    · rw [hop]; left; rfl
    · rw [hop]; right; simp
  · rw [← hop]

/-- C5: every receive/credit operation produced by trace synthesis
(`traceOps`) or token-transfer synthesis (`erc20Ops`, `erc721Ops`) carries a
related-operation list that is exactly the index of its paired send/debit
operation, the immediately preceding emitted operation: whenever an emitted
operation carries a nonempty related list, it sits at a positive position and
its related list is exactly the singleton index of the operation directly
before it. -/
theorem c5_paired_credit_links :
    (∀ (trace : List FlatCall) (sN : Nat) (ops : List Operation),
        traceOps trace sN = some ops →
        ∀ (i : Nat) (op : Operation), ops.get? i = some op → op.relatedOps ≠ [] →
          0 < i ∧ (ops.get? (i - 1)).map (fun p => [p.opIndex]) = some op.relatedOps) ∧
    (∀ (b2a : String → String) (log : Log) (cur : Currency) (n i : Nat) (op : Operation),
        (erc20Ops b2a log cur n).get? i = some op → op.relatedOps ≠ [] →
          0 < i ∧ ((erc20Ops b2a log cur n).get? (i - 1)).map (fun p => [p.opIndex]) =
            some op.relatedOps) ∧
    (∀ (b2a : String → String) (log : Log) (n i : Nat) (op : Operation),
        (erc721Ops b2a log n).get? i = some op → op.relatedOps ≠ [] →
          0 < i ∧ ((erc721Ops b2a log n).get? (i - 1)).map (fun p => [p.opIndex]) =
            some op.relatedOps) := by
  refine ⟨?_, ?_, ?_⟩
  · intro trace sN ops h
    obtain ⟨hR, hH⟩ := traceOps_c5inv h
    exact pairedLink_of_inv (traceOps_idxFrom h) hR hH
  · intro b2a log cur n
    obtain ⟨hR, hH⟩ := erc20Ops_c5inv b2a log cur n
    exact pairedLink_of_inv (erc20Ops_idxFrom b2a log cur n) hR hH
  · intro b2a log n
    obtain ⟨hR, hH⟩ := erc721Ops_c5inv b2a log n
    exact pairedLink_of_inv (erc721Ops_idxFrom b2a log n) hR hH

/-- Witness for C5 at the concrete trace `c5trace`: the credit operation at
position 1 links exactly to the debit at position 0. -/
theorem c5_witness :
    0 < 1 ∧ (c5ops.get? (1 - 1)).map (fun p => [p.opIndex]) =
      some ({ opIndex := 1, relatedOps := [0], opType := "CALL", status := "SUCCESS",
              address := "0xB", amount := some ⟨5, .avax⟩,
              opMeta := .traceMeta none } : Operation).relatedOps :=
  c5_paired_credit_links.1 c5trace 0 c5ops (by decide) 1
    { opIndex := 1, relatedOps := [0], opType := "CALL", status := "SUCCESS",
      address := "0xB", amount := some ⟨5, .avax⟩, opMeta := .traceMeta none }
    (by decide) (by decide)

theorem callType_ne_selfdestruct {t : String} (h : CallType t = true) :
    (t == OpSelfDestruct) = false := by
  simp only [CallType, Bool.or_eq_true, beq_iff_eq] at h
  rcases h with ((h | h) | h) | h <;> subst h <;> decide

theorem callType_not_create {t : String} (h : CallType t = true) :
    CreateType t = false := by
  simp only [CallType, Bool.or_eq_true, beq_iff_eq] at h
  rcases h with ((h | h) | h) | h <;> subst h <;> decide

theorem traceStep_skip {sN : Nat} {st : List Operation × Ledger} {call : FlatCall}
    (h0 : (call.value == 0) = true) (hC : CallType call.callType = true) :
    traceStep sN st call = st := by
  have h1 := callType_ne_selfdestruct hC
  have h2 := callType_not_create hC
  simp only [traceStep, traceStepTail, h0, hC, h1, h2, Bool.and_self, Bool.not_true,
    Bool.false_and, Bool.and_false, if_false, Bool.false_eq_true, ite_false]
  split <;> rfl

theorem foldl_traceStep_filter (sN : Nat) :
    ∀ (l : List FlatCall) (st : List Operation × Ledger),
      List.foldl (traceStep sN) st (l.filter (fun c => !(c.value == 0 && CallType c.callType))) =
        List.foldl (traceStep sN) st l
  | [], _ => rfl
  | c :: rest, st => by
    by_cases hp : (!(c.value == 0 && CallType c.callType)) = true
    · have hb : (c.value == 0 && CallType c.callType) = false := by
        revert hp
        cases c.value == 0 && CallType c.callType <;> simp
      rw [show List.filter (fun c => !(c.value == 0 && CallType c.callType)) (c :: rest) =
          c :: List.filter (fun c => !(c.value == 0 && CallType c.callType)) rest from by
        simp only [List.filter_cons, hb, Bool.not_false, eq_self_iff_true, if_true]]
      rw [List.foldl_cons, List.foldl_cons]
      exact foldl_traceStep_filter sN rest (traceStep sN st c)
    · have hb : (c.value == 0 && CallType c.callType) = true := by
        revert hp
        cases c.value == 0 && CallType c.callType <;> simp
      rw [show List.filter (fun c => !(c.value == 0 && CallType c.callType)) (c :: rest) =
          List.filter (fun c => !(c.value == 0 && CallType c.callType)) rest from by
        simp only [List.filter_cons, hb, Bool.not_true, Bool.false_eq_true, if_false]]
      rw [List.foldl_cons]
      rw [Bool.and_eq_true] at hb
      rw [traceStep_skip (by simp [hb.1]) hb.2]
      exact foldl_traceStep_filter sN rest st

/-- C7: a flattened call of a value-transfer call kind with zero value
contributes nothing at all to the trace output — removing all such calls from
a trace leaves `traceOps` unchanged, so no such call ever appears in the
output, while the destroyed-account ledger bookkeeping of the remaining calls
is unaffected. -/
theorem c7_zero_value_calls_skipped (trace : List FlatCall) (sN : Nat) :
    traceOps (trace.filter (fun c => !(c.value == 0 && CallType c.callType))) sN =
      traceOps trace sN := by
  unfold traceOps
  by_cases ht : trace.isEmpty = true
  · have htn : trace = [] := by
      cases trace with
      | nil => rfl
      | cons a l => cases ht
    subst htn
    rfl
  · by_cases hf : (trace.filter (fun c => !(c.value == 0 && CallType c.callType))).isEmpty = true
    · rw [if_pos hf, if_neg ht]
      have hfn : trace.filter (fun c => !(c.value == 0 && CallType c.callType)) = [] := by
        cases hfc : trace.filter (fun c => !(c.value == 0 && CallType c.callType)) with
        | nil => rfl
        | cons a l => rw [hfc] at hf; cases hf
      have hfold : List.foldl (traceStep sN) ([], []) trace = ([], []) := by
        rw [← foldl_traceStep_filter sN trace ([], []), hfn]
        rfl
      rw [hfold]
      rfl
    · rw [if_neg hf, if_neg ht, foldl_traceStep_filter sN trace ([], [])]

theorem beq_false_of_bne {a b : String} (hc : (a != b) = true) : (a == b) = false := by
  cases h2 : a == b with
  | false => rfl
  | true =>
    rw [show (a != b) = !(a == b) from rfl, h2] at hc
    cases hc

theorem beq_true_of_not_bne {a b : String} (hc : ¬((a != b) = true)) : (a == b) = true := by
  cases h2 : a == b with
  | true => rfl
  | false =>
    exact absurd (by rw [show (a != b) = !(a == b) from rfl, h2]; rfl) hc

theorem importInputs_sum :
    ∀ (ins : List ImportedInput) (a : Int),
      ins.foldl (fun acc inp => acc + toInt64 inp.amount) a =
        a + (ins.map (fun i => toInt64 i.amount)).sum
  | [], a => by simp
  | i :: rest, a => by
    simp only [List.foldl_cons, List.map_cons, List.sum_cons]
    rw [importInputs_sum rest (a + toInt64 i.amount)]
    ring

theorem importOutsLoop_total (tI : String) (tIds : List String) (bI : String) (nI : Nat)
    (sC av : String) :
    ∀ (outs : List ImportOut) (idx : Int),
      (importOutsLoop tI tIds bI nI sC av idx outs).2 =
        ((outs.filter (fun o => o.assetID == av)).map (fun o => (o.amount : Int))).sum
  | [], idx => by simp [importOutsLoop]
  | out :: rest, idx => by
    simp only [importOutsLoop]
    by_cases hc : (out.assetID != av) = true
    · rw [if_pos hc]
      rw [importOutsLoop_total tI tIds bI nI sC av rest idx]
      have hf : (out.assetID == av) = false := beq_false_of_bne hc
      simp [List.filter_cons, hf]
    · rw [if_neg hc]
      have ht : (out.assetID == av) = true := beq_true_of_not_bne hc
      simp only [List.filter_cons, ht, if_true, List.map_cons, List.sum_cons]
      rw [importOutsLoop_total tI tIds bI nI sC av rest (idx + 1)]

theorem createExportedOutsLoop_total (f : String → String) (tI : String) :
    ∀ (outs : List ExportedOut) (i : Nat),
      (createExportedOutsLoop f tI i outs).2 = (outs.map (fun o => (o.amount : Int))).sum
  | [], _ => rfl
  | out :: rest, i => by
    simp only [createExportedOutsLoop, List.map_cons, List.sum_cons]
    rw [createExportedOutsLoop_total f tI rest (i + 1)]

theorem exportInsLoop_tin (tI bI : String) (nI : Nat) (dC av : String) (we : Bool)
    (eOps : List Operation) (tE : Int) :
    ∀ (ins : List ExportIn) (idx : Int),
      (exportInsLoop tI bI nI dC av we eOps tE idx ins).tin =
        ((ins.filter (fun i => i.assetID == av)).map (fun i => (i.amount : Int))).sum
  | [], _ => rfl
  | inp :: rest, idx => by
    simp only [exportInsLoop]
    by_cases hc : (inp.assetID != av) = true
    · rw [if_pos hc]
      rw [exportInsLoop_tin tI bI nI dC av we eOps tE rest idx]
      have hf : (inp.assetID == av) = false := beq_false_of_bne hc
      simp [List.filter_cons, hf]
    · rw [if_neg hc]
      have ht : (inp.assetID == av) = true := beq_true_of_not_bne hc
      simp only [List.filter_cons, ht, if_true, List.map_cons, List.sum_cons]
      rw [exportInsLoop_tin tI bI nI dC av we eOps tE rest (idx + 1)]

theorem exportInsLoop_tout (tI bI : String) (nI : Nat) (dC av : String) (we : Bool)
    (eOps : List Operation) (tE : Int) :
    ∀ (ins : List ExportIn) (idx : Int),
      (exportInsLoop tI bI nI dC av we eOps tE idx ins).tout =
        if we then ((ins.filter (fun i => i.assetID == av)).length : Int) * tE else 0
  | [], _ => by cases we <;> simp [exportInsLoop]
  | inp :: rest, idx => by
    simp only [exportInsLoop]
    by_cases hc : (inp.assetID != av) = true
    · rw [if_pos hc]
      rw [exportInsLoop_tout tI bI nI dC av we eOps tE rest idx]
      have hf : (inp.assetID == av) = false := beq_false_of_bne hc
      simp [List.filter_cons, hf]
    · rw [if_neg hc]
      have ht : (inp.assetID == av) = true := beq_true_of_not_bne hc
      simp only [List.filter_cons, ht, if_true]
      rw [exportInsLoop_tout tI bI nI dC av we eOps tE rest (idx + 1)]
      cases we with
      | false => simp
      | true =>
        simp only [if_true]
        rw [List.length_cons]
        push_cast
        ring

/-- C3 amended: the fee attached to an atomic transaction's metadata equals
the closed-form `codeTxFee`: for imports, the sum over all imported inputs
(regardless of asset id) of the `int64`-converted amounts minus the sum of
native-asset output amounts; for exports, the sum of native-asset input
amounts minus the exported-output total counted once per native-asset input
(when exported outputs are declared and the destination alias is known). -/
theorem c3_amended_fee (mapRange : List String → List String)
    (aliasOf : String → Option String) (formatAddr : String → String)
    (rawIdx : Nat) (avaxAssetID : String) (tx : AtomicTx) :
    (crossChainTransaction mapRange aliasOf formatAddr rawIdx avaxAssetID tx).txFee =
      codeTxFee aliasOf avaxAssetID tx := by
  cases tx with
  | importTx tI bI nI sC ins outs =>
    simp only [crossChainTransaction, codeTxFee]
    rw [importInputs_sum, importOutsLoop_total]
    simp
  | exportTx tI bI nI dC ins eouts =>
    simp only [crossChainTransaction, codeTxFee]
    rw [exportInsLoop_tin, exportInsLoop_tout]
    show _ - _ = _
    rw [show (createExportedOuts formatAddr tI (eouts.getD [])).2 =
        ((eouts.getD []).map (fun o => (o.amount : Int))).sum from
      createExportedOutsLoop_total formatAddr tI (eouts.getD []) 0]

theorem importOutsLoop_txIds_meta (tI : String) (tIds : List String) (bI : String)
    (nI : Nat) (sC av : String) :
    ∀ (outs : List ImportOut) (idx : Int),
      ∀ op ∈ (importOutsLoop tI tIds bI nI sC av idx outs).1, opTxIds op = some tIds
  | [], _, op, hop => absurd hop (List.not_mem_nil op)
  | out :: rest, idx, op, hop => by
    simp only [importOutsLoop] at hop
    by_cases hc : (out.assetID != av) = true
    · rw [if_pos hc] at hop
      exact importOutsLoop_txIds_meta tI tIds bI nI sC av rest idx op hop
    · rw [if_neg hc] at hop
      rcases List.mem_cons.mp hop with h1 | h1

      · rw [h1]
        rfl
      · exact importOutsLoop_txIds_meta tI tIds bI nI sC av rest (idx + 1) op h1

/-- C8 amended: for every admissible map enumeration, the `tx_ids` metadata
list attached to each import operation is a duplicate-free enumeration of the
set of source transaction ids of the imported inputs; permuting the imported
inputs (and enumerating with any admissible order) yields a permutation of
the same set, though the concrete order is runtime-dependent rather than
deterministic. -/
theorem c8_amended (f : List String → List String)
    (aliasOf : String → Option String) (formatAddr : String → String)
    (rawIdx : Nat) (avaxAssetID : String) (tI bI : String) (nI : Nat) (sC : String)
    (ins : List ImportedInput) (outs : List ImportOut)
    (hf : (f (ins.map (fun i => i.txID))).Perm ((ins.map (fun i => i.txID)).dedup)) :
    (∀ op ∈ (crossChainTransaction f aliasOf formatAddr rawIdx avaxAssetID
        (.importTx tI bI nI sC ins outs)).ops,
      opTxIds op = some (f (ins.map (fun i => i.txID)))) ∧
    (f (ins.map (fun i => i.txID))).Nodup ∧
    (∀ (ins2 : List ImportedInput) (g : List String → List String),
      ins.Perm ins2 →
      (g (ins2.map (fun i => i.txID))).Perm ((ins2.map (fun i => i.txID)).dedup) →
      (f (ins.map (fun i => i.txID))).Perm (g (ins2.map (fun i => i.txID)))) := by
  refine ⟨?_, ?_, ?_⟩
  · intro op hop
    simp only [crossChainTransaction] at hop
    exact importOutsLoop_txIds_meta tI (f (ins.map (fun i => i.txID))) bI nI sC
      avaxAssetID outs _ op hop
  · exact hf.symm.nodup (List.nodup_dedup _)
  · intro ins2 g hp hg
    exact hf.trans (((hp.map (fun i => i.txID)).dedup).trans hg.symm)

/-- Witness for C8 amended at the concrete import transaction `c8tx`. -/
theorem c8_witness :
    opTxIds c8op0 = some (dedupRange (c8ins.map (fun i => i.txID))) ∧
    (dedupRange (c8ins.map (fun i => i.txID))).Nodup ∧
    (dedupRange (c8ins.map (fun i => i.txID))).Perm
      (revDedupRange (c8ins.reverse.map (fun i => i.txID))) := by
  have h := c8_amended dedupRange exAliasOf exFormatAddr 0 "AVAX" "T" "B" 1 "S"
    c8ins [⟨"0xO", 3, "AVAX"⟩] (by decide)
  exact ⟨h.1 c8op0 (by decide), h.2.1,
    h.2.2 c8ins.reverse revDedupRange (by decide) (by decide)⟩

theorem bool_not_and_true {a b : Bool} (h : (a || b) = true) : (!a && !b) = false := by
  cases a <;> cases b <;> simp_all

theorem bool_not_and_false {a b : Bool} (h : ¬((a || b) = true)) : (!a && !b) = true := by
  cases a <;> cases b <;> simp_all

theorem bool_or_eq_false {a b : Bool} (h : ¬((a || b) = true)) : (a || b) = false := by
  cases a <;> cases b <;> simp_all

theorem processLogs_firstErr {epsilon : Type}
    (client : String → Bool → Except epsilon (String × Nat)) (b2a : String → String)
    (mode : Bool) (wl : List String) (inc : Bool) :
    ∀ (logs : List Log) (ops : List Operation) (e : epsilon),
      firstLogErr client mode wl logs = some e →
      processLogs client b2a mode wl inc logs ops = .error e := by
  intro logs
  induction logs with
  | nil =>
    intro ops e h
    exact Option.noConfusion h
  | cons log rest ih =>
    intro ops e h
    simp only [firstLogErr] at h
    simp only [processLogs]
    cases hts : log.topics with
    | nil =>
      have hq : qualifiesLog mode wl log = false := by simp [qualifiesLog, hts]
      rw [if_neg (by simp [hq])] at h
      exact ih ops e h
    | cons t0 ts =>
      by_cases h1 : (t0 == transferMethodHash) = true
      · have h1f : (t0 != transferMethodHash) = false := by
          rw [show (t0 != transferMethodHash) = !(t0 == transferMethodHash) from rfl, h1]
          rfl
        simp only [h1f, Bool.false_eq_true, if_false]
        by_cases h2 : (mode || EqualFoldContains wl log.address) = true
        · simp only [bool_not_and_true h2, Bool.false_eq_true, if_false]
          by_cases h4 : ((t0 :: ts).length == topicsInErc721Transfer) = true
          · simp only [h4, if_true]
            have hlen4 : (t0 :: ts).length = topicsInErc721Transfer := beq_iff_eq.mp h4
            have h3f : ((t0 :: ts).length == topicsInErc20Transfer) = false := by
              rw [hlen4]
              rfl
            have hq : qualifiesLog mode wl log = true := by
              simp only [qualifiesLog, hts, h1, h2, h4, Bool.true_and, Bool.and_true,
                Bool.true_or, Bool.or_true]
            rw [if_pos hq] at h
            rw [show logLookup client log = client log.address false from by
              simp only [logLookup, hts, List.length_cons]
              congr 1] at h
            cases hlk : client log.address false with
            | error e2 =>
              rw [hlk] at h
              have he : e2 = e := by simpa using h
              simp [he]
            | ok pr =>
              rw [hlk] at h
              obtain ⟨symbol, decimals⟩ := pr
              dsimp only
              split
              · exact ih ops e (by simpa using h)
              · exact ih _ e (by simpa using h)
          · simp only [h4, Bool.false_eq_true, if_false]
            by_cases h3 : ((t0 :: ts).length == topicsInErc20Transfer) = true
            · simp only [h3, if_true]
              have hq : qualifiesLog mode wl log = true := by
                simp only [qualifiesLog, hts, h1, h2, h3, Bool.true_and, Bool.and_true,
                  Bool.true_or, Bool.or_true]
              rw [if_pos hq] at h
              rw [show logLookup client log = client log.address true from by
                simp only [logLookup, hts, List.length_cons]
                congr 1] at h
              cases hlk : client log.address true with
              | error e2 =>
                rw [hlk] at h
                have he : e2 = e := by simpa using h
                simp [he]
              | ok pr =>
                rw [hlk] at h
                obtain ⟨symbol, decimals⟩ := pr
                dsimp only
                split
                · exact ih ops e (by simpa using h)
                · exact ih _ e (by simpa using h)
            · simp only [h3, Bool.false_eq_true, if_false]
              have h4b : ((t0 :: ts).length == topicsInErc721Transfer) = false := by
                revert h4
                cases (t0 :: ts).length == topicsInErc721Transfer <;> simp
              have h3b : ((t0 :: ts).length == topicsInErc20Transfer) = false := by
                revert h3
                cases (t0 :: ts).length == topicsInErc20Transfer <;> simp
              have hq : qualifiesLog mode wl log = false := by
                simp only [qualifiesLog, hts, h4b, h3b]
                simp
              rw [if_neg (by simp [hq])] at h
              exact ih ops e h
        · simp only [bool_not_and_false h2, if_true]
          have hq : qualifiesLog mode wl log = false := by
            simp [qualifiesLog, hts, bool_or_eq_false h2]
          rw [if_neg (by simp [hq])] at h
          exact ih ops e h
      · have h1t : (t0 != transferMethodHash) = true := by
          rw [show (t0 != transferMethodHash) = !(t0 == transferMethodHash) from rfl]
          revert h1
          cases t0 == transferMethodHash <;> simp
        simp only [h1t, if_true]
        have h1b : (t0 == transferMethodHash) = false := by
          revert h1
          cases t0 == transferMethodHash <;> simp
        have hq : qualifiesLog mode wl log = false := by
          simp [qualifiesLog, hts, h1b]
        rw [if_neg (by simp [hq])] at h
        exact ih ops e h

/-- C9 amended: if the trace stage completes (no fatal negative-ledger halt)
and the contract-metadata lookup fails for some qualifying transfer log, then
`Transaction` returns the first such lookup error verbatim as a client error,
and no transaction record at all. -/
theorem c9_amended_lookup_error_aborts {epsilon : Type}
    (client : String → Bool → Except epsilon (String × Nat)) (bytesToAddress : String → String)
    (sender feeReceiver : String) (gasUsed : Nat) (msgGasPrice : Int)
    (txHash : String) (txGas : Nat) (txGasPrice : Int) (txType : Nat)
    (flattenedTrace : List FlatCall) (logs : List Log)
    (isAnalyticsMode : Bool) (standardModeWhiteList : List String) (includeUnknownTokens : Bool)
    (tOps : List Operation) (e : epsilon)
    (h1 : traceOps flattenedTrace 2 = some tOps)
    (h2 : firstLogErr client isAnalyticsMode standardModeWhiteList logs = some e) :
    Transaction client bytesToAddress sender feeReceiver gasUsed msgGasPrice txHash txGas
      txGasPrice txType flattenedTrace logs isAnalyticsMode standardModeWhiteList
      includeUnknownTokens = .error (.client e) := by
  simp only [Transaction]
  rw [show (feeOps sender feeReceiver ((gasUsed : Int) * msgGasPrice)).length = 2 from rfl]
  rw [h1]
  dsimp only
  rw [processLogs_firstErr client bytesToAddress isAnalyticsMode standardModeWhiteList
    includeUnknownTokens logs _ e h2]

/-- Witness for C9 amended: with an empty trace and a qualifying log whose
lookup fails with "boom", `Transaction` returns exactly that client error. -/
theorem c9_witness :
    Transaction c9client (fun s => s) "0xS" "0xC" 0 0 "h" 0 0 0 [] [c9log] true [] true =
      .error (.client "boom") :=
  c9_amended_lookup_error_aborts c9client (fun s => s) "0xS" "0xC" 0 0 "h" 0 0 0
    [] [c9log] true [] true [] "boom" rfl (by decide)

end AvaRosetta
